import Mathlib

/-!
Shallow embedding of `src/jiub/thread_reader.py`.

The module scrapes a paginated forum thread: it classifies the game
master's posts into stage transitions, maps post identifiers to page
numbers, extracts player rosters and action commands, and resolves the
thread's page count from a navigation panel.

Modelling conventions:
* A fetched HTML page is modelled by the data the functions read from it:
  a post is a record of its `data-num`, `data-autor`, the `data-time` of
  the expected span when that span is present (`Option Int`), the texts of
  its `h2`/`h4` elements, and so on.  An absent element or attribute is
  `none`.
* Python exceptions that the code does not catch are modelled with
  `Except String`, the error string naming the exception class that the
  corresponding line raises (`TypeError` for subscripting `None`,
  `AttributeError` for calling a method on `None`).
* Python string operations (`str.lower`, `str.strip`, `int(...)`, and the
  literal-prefix regexes used with `re.match`) are modelled by structural
  recursion over `String.data`, so that every definition evaluates inside
  the kernel.  `unicodedata.normalize("NFKC", ...)` is an external
  collaborator and is passed in as an abstract `String → String`.
-/

/-- Game stage enumeration, as in `states/stage.py`: Day, Night, or End of game. -/
inductive Stage
  | Day
  | Night
  | End
deriving DecidableEq, Repr

/-- A stage transition record, as in `modules/game_stages.py`: the post that
announced it, the stage it starts, and the announcement timestamp. -/
structure GameStage where
  post_id : Nat
  game_stage : Stage
  stage_start_time : Int
deriving DecidableEq, Repr

/-- A player action record, as in `modules/game_actions.py`. -/
structure GameAction where
  post_id : Nat
  post_time : Int
  contents : String
  author : String
deriving DecidableEq, Repr

/-- Does the first character list begin with the second one?  Models
`re.match` against a regex that is a literal followed by `[0-9]*` (which
also matches the empty digit string), i.e. a plain prefix test. -/
def begins_with : List Char → List Char → Bool
  | _, [] => true
  | [], _ :: _ => false
  | c :: cs, p :: ps => c == p && begins_with cs ps

/-- Models Python `str.lower()` (restricted to the ASCII range, which covers
every use in this module). -/
def py_lower (s : String) : String :=
  ⟨s.data.map Char.toLower⟩

/-- Drop leading whitespace characters from a character list. -/
def drop_leading_ws : List Char → List Char
  | [] => []
  | c :: rest => if c.isWhitespace then drop_leading_ws rest else c :: rest

/-- Models Python `str.strip()`: remove leading and trailing whitespace. -/
def py_strip (s : String) : String :=
  ⟨((drop_leading_ws (drop_leading_ws s.data).reverse)).reverse⟩

/-- Accumulate the value of a decimal digit string; `none` when a
non-digit character occurs. -/
def digits_val (acc : Nat) : List Char → Option Nat
  | [] => some acc
  | c :: rest => if c.isDigit then digits_val (acc * 10 + (c.toNat - 48)) rest else none

/-- Models Python `int(s)`: strip whitespace, accept an optional sign
followed by at least one decimal digit, reject everything else. -/
def py_int (s : String) : Option Int :=
  match (py_strip s).data with
  | [] => none
  | c :: rest =>
    if c == '-' then
      match rest with
      | [] => none
      | _ :: _ => (digits_val 0 rest).map (fun n => -(n : Int))
    else if c == '+' then
      match rest with
      | [] => none
      | _ :: _ => (digits_val 0 rest).map (fun n => (n : Int))
    else (digits_val 0 (c :: rest)).map (fun n => (n : Int))

/-- The document as read by `get_total_pages`: the texts of the `a` links
inside the `div#bottompanel` navigation panel, or `none` when that panel is
absent from the page. -/
structure Doc where
  bottompanel : Option (List String)
deriving DecidableEq, Repr

/-- Embeds `get_total_pages`: read the second-to-last navigation link's text as the
page count.  `panel.find_all('a')[-2]` indexes `length - 2` and raises
`IndexError` when fewer than two links exist; the surrounding
`try ... except (AttributeError, IndexError, ValueError)` turns every
structural failure into the default `1`. -/
def get_total_pages (html : Doc) : Int :=
  match html.bottompanel with
  | none => 1
  | some links =>
    if 2 ≤ links.length then
      match py_int (links.getD (links.length - 2) "") with
      | some n => n
      | none => 1
    else 1

/-- Embeds `get_page_number_from_post`: `math.ceil(post_id / 30)`, the division
taken exactly (the Python floats are exact at these magnitudes). -/
def get_page_number_from_post (post_id : Nat) : Nat :=
  (Int.ceil ((post_id : ℚ) / 30)).toNat

lemma get_page_number_from_post_eq (P : Nat) :
    get_page_number_from_post P = (P + 29) / 30 := by
  unfold get_page_number_from_post
  have hceil : ∀ q : Nat, P ≤ 30 * q → 30 * q ≤ P + 29 →
      Int.ceil ((P : ℚ) / 30) = (q : Int) := by
    intro q hA hB
    rw [Int.ceil_eq_iff]
    constructor
    · rw [lt_div_iff₀ (by norm_num : (0:ℚ) < 30)]
      have hB' : ((30 * q : Nat) : ℚ) ≤ ((P + 29 : Nat) : ℚ) := by exact_mod_cast hB
      push_cast at hB' ⊢
      linarith
    · rw [div_le_iff₀ (by norm_num : (0:ℚ) < 30)]
      have hA' : ((P : Nat) : ℚ) ≤ ((30 * q : Nat) : ℚ) := by exact_mod_cast hA
      push_cast at hA' ⊢
      linarith
  rw [hceil ((P + 29) / 30) (by omega) (by omega), Int.toNat_natCast]

/-- C3: for all page counts N ≥ 1 and post identifiers P in [1, 30N], the
post-to-page mapping returns the ceiling of P/30 and is monotonic
non-decreasing in P. -/
theorem get_page_number_from_post_spec (N P : Nat) (hN : 1 ≤ N) (hP : 1 ≤ P)
    (hPN : P ≤ 30 * N) :
    get_page_number_from_post P = (P + 29) / 30 ∧
      ∀ Q : Nat, P ≤ Q → Q ≤ 30 * N →
        get_page_number_from_post P ≤ get_page_number_from_post Q := by
  refine ⟨get_page_number_from_post_eq P, fun Q hPQ _ => ?_⟩
  rw [get_page_number_from_post_eq, get_page_number_from_post_eq]
  exact Nat.div_le_div_right (by omega)

/-- Witness for C3 at N = 1, P = 3: post 3 lives on page 1. -/
theorem get_page_number_from_post_spec_witness :
    1 ≤ 1 ∧ 1 ≤ 3 ∧ 3 ≤ 30 * 1 ∧ get_page_number_from_post 3 = 1 :=
  ⟨by decide, by decide, by decide,
    ((get_page_number_from_post_spec 1 3 (by decide) (by decide) (by decide)).1).trans
      (by decide)⟩

lemma second_to_last_eq (links : List String) (h : 2 ≤ links.length) :
    links.reverse.getD 1 "" = links.getD (links.length - 2) "" := by
  have h1 : 1 < links.length := by omega
  rw [List.getD_eq_getElem?_getD, List.getD_eq_getElem?_getD,
    List.getElem?_reverse h1]
  have h2 : links.length - 1 - 1 = links.length - 2 := by omega
  rw [h2]

/-- C8: the pagination resolver returns the second-to-last navigation link's
text parsed as an integer, and on any structural failure (panel absent,
fewer than two links, non-numeric text) it returns 1; being a total
function it never raises. -/
theorem get_total_pages_spec (html : Doc) :
    (html.bottompanel = none → get_total_pages html = 1) ∧
    (∀ links : List String, html.bottompanel = some links → links.length < 2 →
      get_total_pages html = 1) ∧
    (∀ links : List String, html.bottompanel = some links → 2 ≤ links.length →
      py_int (links.reverse.getD 1 "") = none → get_total_pages html = 1) ∧
    (∀ (links : List String) (n : Int), html.bottompanel = some links →
      2 ≤ links.length → py_int (links.reverse.getD 1 "") = some n →
      get_total_pages html = n) := by
  refine ⟨fun h => ?_, fun links h hlen => ?_, fun links h hlen hparse => ?_,
    fun links n h hlen hparse => ?_⟩
  · simp only [get_total_pages, h]
  · simp only [get_total_pages, h]
    rw [if_neg (by omega)]
  · simp only [get_total_pages, h]
    rw [if_pos hlen]
    rw [second_to_last_eq links hlen] at hparse
    rw [hparse]
  · simp only [get_total_pages, h]
    rw [if_pos hlen]
    rw [second_to_last_eq links hlen] at hparse
    rw [hparse]

/-- Witness for C8: a missing panel yields 1, and a well-formed panel whose
second-to-last link reads "7" yields 7. -/
theorem get_total_pages_spec_witness :
    get_total_pages ⟨none⟩ = 1 ∧ get_total_pages ⟨some ["1", "7", "next"]⟩ = 7 :=
  ⟨(get_total_pages_spec ⟨none⟩).1 rfl,
    (get_total_pages_spec ⟨some ["1", "7", "next"]⟩).2.2.2 ["1", "7", "next"] 7 rfl
      (by decide) (by decide)⟩

example : py_int "7" = some 7 := by decide
example : py_int " 42 " = some 42 := by decide
example : py_int "next" = none := by decide
example : py_int "-3" = some (-3) := by decide
example : py_int "-" = none := by decide
example : py_int "" = none := by decide
example : py_lower " Alice " = " alice " := by decide
example : py_strip " Alice " = "Alice" := by decide
example : begins_with "Día 4".data "Día ".data = true := by decide
example : begins_with "Final del día 12".data "Final del día ".data = true := by decide

/-- A game-master post as read by `parse_stage` and `get_last_event`: its
`data-num`, the `data-time` of the expected timestamp span when that span is
present, and the texts of its `h2` headers in document order. -/
structure SPost where
  num : Nat
  spanTime : Option Int
  headers : List String
deriving DecidableEq, Repr

/-- Models `re.match('^Final de la partida', header)`. -/
def game_end_match (s : String) : Bool :=
  begins_with s.data "Final de la partida".data

/-- Models `re.match('^Final del día [0-9]*', header)`; `[0-9]*` also accepts the
empty digit string, so the regex is a prefix test for its literal part. -/
def stage_end_match (s : String) : Bool :=
  begins_with s.data "Final del día ".data

/-- Models `re.match('^Día [0-9]*', header)`. -/
def stage_start_match (s : String) : Bool :=
  begins_with s.data "Día ".data

/-- The header loop of `parse_stage`: walk the `h2` headers in document
order and return at the first header matching one of the three patterns,
tested in the precedence order end-of-game, end-of-stage, start-of-stage. -/
def stage_from_headers (g e s : String → Bool) (post_id : Nat) (timestamp : Int) :
    List String → Option GameStage
  | [] => none
  | h :: rest =>
    if g h then some ⟨post_id, Stage.End, timestamp⟩
    else if e h then some ⟨post_id, Stage.Night, timestamp⟩
    else if s h then some ⟨post_id, Stage.Day, timestamp⟩
    else stage_from_headers g e s post_id timestamp rest

/-- Embeds `parse_stage`: extract `post_id` and the timestamp, then classify the
headers.  The timestamp line subscripts the result of `post.find("span",
attrs={"data-time": True})`, which is `None` when the span is absent, so a
post without the span raises `TypeError` before any header is examined. -/
def parse_stage (g e s : String → Bool) (post : SPost) : Except String (Option GameStage) :=
  match post.spanTime with
  | none => Except.error "TypeError"
  | some timestamp =>
    Except.ok (stage_from_headers g e s post.num timestamp post.headers)

/-- Spec-side classification of one header (section 4.3 of the spec): the
three mutually exclusive patterns tested in fixed precedence order. -/
def classify_header_spec (g e s : String → Bool) (h : String) : Option Stage :=
  if g h then some Stage.End
  else if e h then some Stage.Night
  else if s h then some Stage.Day
  else none

lemma stage_from_headers_eq_findSome (g e s : String → Bool) (post_id : Nat)
    (timestamp : Int) (hs : List String) :
    stage_from_headers g e s post_id timestamp hs =
      (hs.findSome? (classify_header_spec g e s)).map
        (fun k => ⟨post_id, k, timestamp⟩) := by
  induction hs with
  | nil => rfl
  | cons h rest ih =>
    rw [List.findSome?_cons]
    by_cases hg : g h
    · simp [stage_from_headers, classify_header_spec, hg]
    · by_cases he : e h
      · simp [stage_from_headers, classify_header_spec, hg, he]
      · by_cases hss : s h
        · simp [stage_from_headers, classify_header_spec, hg, he, hss]
        · simp [stage_from_headers, classify_header_spec, hg, he, hss, ih]

/-- C2: stage classification tests the three patterns in precedence order
end-of-game, end-of-stage, start-of-stage on each header in document order
and returns the StageEvent of the first matching (header, pattern) pair; a
header matching both the end-of-game and start-of-stage patterns classifies
as End, and a post with no matching header yields no StageEvent. -/
theorem parse_stage_precedence (g e s : String → Bool) (post : SPost) (t : Int)
    (hspan : post.spanTime = some t) :
    parse_stage g e s post =
      Except.ok ((post.headers.findSome? (classify_header_spec g e s)).map
        (fun k => ⟨post.num, k, t⟩)) ∧
    (∀ h : String, g h = true → s h = true →
      classify_header_spec g e s h = some Stage.End) ∧
    ((∀ h ∈ post.headers, classify_header_spec g e s h = none) →
      parse_stage g e s post = Except.ok none) := by
  have hbase : parse_stage g e s post =
      Except.ok (stage_from_headers g e s post.num t post.headers) := by
    unfold parse_stage
    rw [hspan]
  refine ⟨?_, fun h hg hs => ?_, fun hnone => ?_⟩
  · rw [hbase, stage_from_headers_eq_findSome]
  · simp [classify_header_spec, hg]
  · rw [hbase, stage_from_headers_eq_findSome]
    rw [List.findSome?_eq_none_iff.mpr hnone]
    rfl

/-- Witness for C2: an adversarial pair of patterns that both accept the
single header still yields End, never Day. -/
theorem parse_stage_precedence_witness :
    parse_stage (fun _ => true) (fun _ => false) (fun _ => true)
      ⟨3, some 7, ["x"]⟩ = Except.ok (some ⟨3, Stage.End, 7⟩) := by
  have h := parse_stage_precedence (fun _ => true) (fun _ => false) (fun _ => true)
    ⟨3, some 7, ["x"]⟩ 7 rfl
  exact h.1.trans (by rfl)

/-- One page of the reverse scan in `get_game_phase`, the page's posts
already given in scan order: parse each post, propagate a raised exception,
stop at the first post that classifies. -/
def scan_posts (g e s : String → Bool) : List SPost → Except String (Option GameStage)
  | [] => Except.ok none
  | p :: rest =>
    match parse_stage g e s p with
    | Except.error msg => Except.error msg
    | Except.ok (some st) => Except.ok (some st)
    | Except.ok none => scan_posts g e s rest

/-- The page loop of `get_game_phase`, the pages already given in scan
order; within each page the posts are walked in reverse document order. -/
def scan_pages (g e s : String → Bool) : List (List SPost) → Except String (Option GameStage)
  | [] => Except.ok none
  | pg :: rest =>
    match scan_posts g e s pg.reverse with
    | Except.error msg => Except.error msg
    | Except.ok (some st) => Except.ok (some st)
    | Except.ok none => scan_pages g e s rest

/-- Embeds `get_game_phase` over the game master's authored pages (page 1 first):
`for page in range(gm_pages, 0, -1)` walks the pages last to first and
`reversed(posts)` walks each page's posts last to first; the first post
that classifies wins, and an exhausted scan returns the synthetic default
`GameStage(post_id=1, game_stage=Stage.Night, stage_start_time=0)`. -/
def get_game_phase (pages : List (List SPost)) : Except String GameStage :=
  match scan_pages game_end_match stage_end_match stage_start_match pages.reverse with
  | Except.error msg => Except.error msg
  | Except.ok (some st) => Except.ok st
  | Except.ok none => Except.ok ⟨1, Stage.Night, 0⟩

lemma scan_posts_none (g e s : String → Bool) (l : List SPost)
    (h : ∀ p ∈ l, parse_stage g e s p = Except.ok none) :
    scan_posts g e s l = Except.ok none := by
  induction l with
  | nil => rfl
  | cons p rest ih =>
    rw [scan_posts, h p (by simp)]
    exact ih (fun q hq => h q (by simp [hq]))

lemma scan_pages_none (g e s : String → Bool) (L : List (List SPost))
    (h : ∀ pg ∈ L, ∀ p ∈ pg, parse_stage g e s p = Except.ok none) :
    scan_pages g e s L = Except.ok none := by
  induction L with
  | nil => rfl
  | cons pg rest ih =>
    rw [scan_pages,
      scan_posts_none g e s pg.reverse
        (fun p hp => h pg (by simp) p (List.mem_reverse.mp hp))]
    exact ih (fun pg2 hpg2 p hp => h pg2 (by simp [hpg2]) p hp)

/-- C6: when no post in the game master's authored history classifies as a
StageEvent (in particular when there are no posts at all), the phase query
returns exactly the synthetic default StageEvent {post_id=1, stage=Night,
start_time=0}. -/
theorem get_game_phase_default (pages : List (List SPost))
    (h : ∀ p ∈ pages.flatten,
      parse_stage game_end_match stage_end_match stage_start_match p =
        Except.ok none) :
    get_game_phase pages = Except.ok ⟨1, Stage.Night, 0⟩ := by
  unfold get_game_phase
  rw [scan_pages_none _ _ _ pages.reverse
    (fun pg hpg p hp =>
      h p (List.mem_flatten.mpr ⟨pg, List.mem_reverse.mp hpg, hp⟩))]

/-- Witness for C6: a game master with zero posts yields the default. -/
theorem get_game_phase_default_witness :
    get_game_phase [] = Except.ok ⟨1, Stage.Night, 0⟩ :=
  get_game_phase_default [] (by simp)

/-- The value `parse_stage` computes for a post whose timestamp span is
present; `none` also marks a missing span, where `parse_stage` raises
instead of returning. -/
def pure_parse (g e s : String → Bool) (p : SPost) : Option GameStage :=
  match p.spanTime with
  | none => none
  | some t => stage_from_headers g e s p.num t p.headers

lemma parse_stage_eq_ok (g e s : String → Bool) (p : SPost) (h : p.spanTime ≠ none) :
    parse_stage g e s p = Except.ok (pure_parse g e s p) := by
  cases hs : p.spanTime with
  | none => exact absurd hs h
  | some t =>
    unfold parse_stage pure_parse
    rw [hs]

lemma scan_posts_eq (g e s : String → Bool) (l : List SPost)
    (hwf : ∀ p ∈ l, p.spanTime ≠ none) :
    scan_posts g e s l = Except.ok (l.findSome? (pure_parse g e s)) := by
  induction l with
  | nil => rfl
  | cons p rest ih =>
    rw [scan_posts, parse_stage_eq_ok g e s p (hwf p (by simp)), List.findSome?_cons]
    cases hpp : pure_parse g e s p with
    | some st => rfl
    | none => exact ih (fun q hq => hwf q (by simp [hq]))

lemma scan_pages_eq (g e s : String → Bool) (L : List (List SPost))
    (hwf : ∀ pg ∈ L, ∀ p ∈ pg, p.spanTime ≠ none) :
    scan_pages g e s L =
      Except.ok ((L.map List.reverse).flatten.findSome? (pure_parse g e s)) := by
  induction L with
  | nil => rfl
  | cons pg rest ih =>
    rw [scan_pages,
      scan_posts_eq g e s pg.reverse
        (fun p hp => hwf pg (by simp) p (List.mem_reverse.mp hp)),
      List.map_cons, List.flatten_cons, List.findSome?_append]
    cases hpp : pg.reverse.findSome? (pure_parse g e s) with
    | some st => rfl
    | none =>
      rw [ih (fun pg2 h2 p hp => hwf pg2 (by simp [h2]) p hp)]
      rfl

lemma flatten_reverse_map (L : List (List SPost)) :
    (L.reverse.map List.reverse).flatten = L.flatten.reverse := by
  rw [List.reverse_flatten, List.map_reverse]

lemma findSome?_of_max (f : SPost → Option GameStage) (p : SPost) :
    ∀ l : List SPost, l.Pairwise (fun a b => b.num < a.num) → p ∈ l →
      (f p).isSome = true → (∀ q ∈ l, (f q).isSome = true → q.num ≤ p.num) →
      l.findSome? f = f p := by
  intro l
  induction l with
  | nil =>
    intro _ hp
    exact absurd hp (List.not_mem_nil p)
  | cons a rest ih =>
    intro hpair hp hfp hmax
    rw [List.findSome?_cons]
    cases hfa : f a with
    | some st =>
      have hap : a = p := by
        rcases List.mem_cons.mp hp with h | h
        · exact h.symm
        · exfalso
          have hlt : p.num < a.num := (List.pairwise_cons.mp hpair).1 p h
          have hle : a.num ≤ p.num := hmax a (by simp) (by simp [hfa])
          omega
      rw [hap] at hfa
      rw [hfa]
    | none =>
      have hne : p ≠ a := by
        intro hh
        rw [← hh] at hfa
        simp [hfa] at hfp
      have hp2 : p ∈ rest := by
        rcases List.mem_cons.mp hp with h | h
        · exact absurd h hne
        · exact h
      exact ih (List.pairwise_cons.mp hpair).2 hp2 hfp
        (fun q hq hfq => hmax q (by simp [hq]) hfq)

lemma stage_from_headers_isSome (g e s : String → Bool) (post_id : Nat)
    (timestamp : Int) (hs : List String) :
    (stage_from_headers g e s post_id timestamp hs).isSome =
      hs.any (fun h => g h || e h || s h) := by
  induction hs with
  | nil => rfl
  | cons h rest ih =>
    by_cases hg : g h
    · simp [stage_from_headers, hg]
    · by_cases he : e h
      · simp [stage_from_headers, hg, he]
      · by_cases hss : s h
        · simp [stage_from_headers, hg, he, hss]
        · simp [stage_from_headers, hg, he, hss, ih]

lemma stage_from_headers_post_id (g e s : String → Bool) (post_id : Nat)
    (timestamp : Int) :
    ∀ (hs : List String) (st : GameStage),
      stage_from_headers g e s post_id timestamp hs = some st →
      st.post_id = post_id := by
  intro hs
  induction hs with
  | nil =>
    intro st h
    simp [stage_from_headers] at h
  | cons hh rest ih =>
    intro st h
    simp only [stage_from_headers] at h
    split at h
    · exact congrArg GameStage.post_id (Option.some.inj h).symm
    · split at h
      · exact congrArg GameStage.post_id (Option.some.inj h).symm
      · split at h
        · exact congrArg GameStage.post_id (Option.some.inj h).symm
        · exact ih st h

/-- C1: over a well-formed thread (every game-master post carries its
timestamp span and post identifiers strictly increase in thread order), the
phase query returns the StageEvent of the classifiable post with the
greatest identifier, and that event carries that post's identifier. -/
theorem get_game_phase_latest (pages : List (List SPost))
    (hwf : ∀ p ∈ pages.flatten, p.spanTime ≠ none)
    (hsorted : pages.flatten.Pairwise (fun a b => a.num < b.num))
    (p : SPost) (hp : p ∈ pages.flatten)
    (hc : p.headers.any
      (fun h => game_end_match h || stage_end_match h || stage_start_match h) = true)
    (hmax : ∀ q ∈ pages.flatten,
      q.headers.any
        (fun h => game_end_match h || stage_end_match h || stage_start_match h) = true →
      q.num ≤ p.num) :
    ∃ st : GameStage,
      parse_stage game_end_match stage_end_match stage_start_match p =
        Except.ok (some st) ∧
      get_game_phase pages = Except.ok st ∧
      st.post_id = p.num := by
  have hwf2 : ∀ pg ∈ pages.reverse, ∀ q ∈ pg, q.spanTime ≠ none := fun pg hpg q hq =>
    hwf q (List.mem_flatten.mpr ⟨pg, List.mem_reverse.mp hpg, hq⟩)
  have hscan := scan_pages_eq game_end_match stage_end_match stage_start_match
    pages.reverse hwf2
  rw [flatten_reverse_map] at hscan
  obtain ⟨t, ht⟩ : ∃ t, p.spanTime = some t := by
    cases hsp : p.spanTime with
    | none => exact absurd hsp (hwf p hp)
    | some t => exact ⟨t, rfl⟩
  have hppsome :
      (pure_parse game_end_match stage_end_match stage_start_match p).isSome = true := by
    unfold pure_parse
    rw [ht, stage_from_headers_isSome]
    exact hc
  have hfind := findSome?_of_max
    (pure_parse game_end_match stage_end_match stage_start_match) p
    pages.flatten.reverse
    (by
      rw [List.pairwise_reverse]
      exact hsorted)
    (List.mem_reverse.mpr hp) hppsome
    (fun q hq hfq => by
      refine hmax q (List.mem_reverse.mp hq) ?_
      have hqwf := hwf q (List.mem_reverse.mp hq)
      cases hsq : q.spanTime with
      | none => exact absurd hsq hqwf
      | some tq =>
        unfold pure_parse at hfq
        rw [hsq, stage_from_headers_isSome] at hfq
        exact hfq)
  cases hpp : pure_parse game_end_match stage_end_match stage_start_match p with
  | none =>
    rw [hpp] at hppsome
    simp at hppsome
  | some st =>
    refine ⟨st, ?_, ?_, ?_⟩
    · rw [parse_stage_eq_ok _ _ _ p (hwf p hp), hpp]
    · unfold get_game_phase
      rw [hscan, hfind, hpp]
    · unfold pure_parse at hpp
      rw [ht] at hpp
      exact stage_from_headers_post_id _ _ _ _ _ p.headers st hpp

/-- Witness for C1: with a Day event at post 5 and a Night event at post 12,
the phase query returns the Night event with post_id 12. -/
theorem get_game_phase_latest_witness :
    get_game_phase [[⟨5, some 100, ["Día 1"]⟩], [⟨12, some 200, ["Final del día 1"]⟩]] =
      Except.ok ⟨12, Stage.Night, 200⟩ := by
  obtain ⟨st, h1, h2, _⟩ := get_game_phase_latest
    [[⟨5, some 100, ["Día 1"]⟩], [⟨12, some 200, ["Final del día 1"]⟩]]
    (by decide) (by decide) ⟨12, some 200, ["Final del día 1"]⟩ (by decide) (by decide)
    (by decide)
  have hps : parse_stage game_end_match stage_end_match stage_start_match
      ⟨12, some 200, ["Final del día 1"]⟩ =
      Except.ok (some ⟨12, Stage.Night, 200⟩) := by rfl
  have hst : st = ⟨12, Stage.Night, 200⟩ :=
    Option.some.inj (Except.ok.inj (h1.symm.trans hps))
  rw [hst] at h2
  exact h2

/-- The inner loops of `get_last_event` for one page, the posts already in
scan order: return the `data-num` of the first post with a header matching
the event regex. -/
def last_event_posts (event_matches : String → Bool) : List SPost → Option Nat
  | [] => none
  | p :: rest =>
    if p.headers.any event_matches then some p.num
    else last_event_posts event_matches rest

/-- The page loop of `get_last_event`, the pages already in scan order;
within each page the posts are walked in reverse document order. -/
def last_event_pages (event_matches : String → Bool) : List (List SPost) → Option Nat
  | [] => none
  | pg :: rest =>
    match last_event_posts event_matches pg.reverse with
    | some n => some n
    | none => last_event_pages event_matches rest

/-- Embeds `get_last_event` over the author's pages (page 1 first): walk pages last
to first and posts within a page last to first; return the first matching
post's identifier, or the sentinel 1 when no post matches.  `event_matches`
abstracts `re.match(event_regex, ·)` for the caller-supplied regex. -/
def get_last_event (pages : List (List SPost)) (event_matches : String → Bool) : Nat :=
  match last_event_pages event_matches pages.reverse with
  | some n => n
  | none => 1

lemma last_event_posts_eq (event_matches : String → Bool) (l : List SPost) :
    last_event_posts event_matches l =
      (l.find? (fun p => p.headers.any event_matches)).map SPost.num := by
  induction l with
  | nil => rfl
  | cons p rest ih =>
    by_cases h : p.headers.any event_matches
    · simp [last_event_posts, List.find?_cons, h]
    · simp [last_event_posts, List.find?_cons, h, ih]

lemma last_event_pages_eq (event_matches : String → Bool) (L : List (List SPost)) :
    last_event_pages event_matches L =
      ((L.map List.reverse).flatten.find?
        (fun p => p.headers.any event_matches)).map SPost.num := by
  induction L with
  | nil => rfl
  | cons pg rest ih =>
    rw [last_event_pages, last_event_posts_eq, List.map_cons, List.flatten_cons,
      List.find?_append]
    cases hf : pg.reverse.find? (fun p => p.headers.any event_matches) with
    | some q => rfl
    | none =>
      rw [ih]
      rfl

/-- C7: the last-event query reverse-scans the author's posts (pages last to
first, posts within a page last to first) and returns the identifier of the
first post encountered whose header matches the regex, or 1 when no post in
the history matches. -/
theorem get_last_event_spec (pages : List (List SPost)) (event_matches : String → Bool) :
    get_last_event pages event_matches =
      ((pages.flatten.reverse.find?
        (fun p => p.headers.any event_matches)).map SPost.num).getD 1 := by
  unfold get_last_event
  rw [last_event_pages_eq, flatten_reverse_map]
  cases hf : pages.flatten.reverse.find? (fun p => p.headers.any event_matches) with
  | some q => rfl
  | none => rfl

/-- A post on the roster page: its `data-num` and, when the post body holds
an `ol` element, the texts of that list's `a` anchors. -/
structure RPost where
  num : Nat
  ol : Option (List String)
deriving DecidableEq, Repr

/-- Embeds `get_player_list` over the posts of the page computed for
`start_day_post_id`: on the first post whose `data-num` matches,
`post.find('ol')` is `None` when the list is absent and calling
`.find_all('a')` on it raises `AttributeError`; when no post matches, the
loop falls through to `return []`. -/
def get_player_list : List RPost → Nat → Except String (List String)
  | [], _ => Except.ok []
  | p :: rest, start_day_post_id =>
    if p.num = start_day_post_id then
      match p.ol with
      | some players => Except.ok (players.map (fun a => py_strip (py_lower a)))
      | none => Except.error "AttributeError"
    else get_player_list rest start_day_post_id

/-- Counterexample to C5 as stated: when the matching post lacks the ordered
list, the roster query does not return the empty list — it raises
(AttributeError), modelled as an error value. -/
theorem get_player_list_counterexample :
    get_player_list [⟨5, none⟩] 5 = Except.error "AttributeError" := rfl

lemma get_player_list_skip (l₁ tail : List RPost) (sid : Nat)
    (h : ∀ q ∈ l₁, q.num ≠ sid) :
    get_player_list (l₁ ++ tail) sid = get_player_list tail sid := by
  induction l₁ with
  | nil => rfl
  | cons a rest ih =>
    rw [List.cons_append]
    simp only [get_player_list]
    rw [if_neg (h a (by simp))]
    exact ih (fun q hq => h q (by simp [hq]))

/-- C5 (amended): the roster query returns the empty list when no post on
the page carries the requested identifier, and it does not retry; but when
the first matching post lacks the ordered list element it raises
AttributeError instead of returning empty. -/
theorem get_player_list_cases (posts : List RPost) (sid : Nat) :
    ((∀ p ∈ posts, p.num ≠ sid) → get_player_list posts sid = Except.ok []) ∧
    (∀ (l₁ : List RPost) (p : RPost) (l₂ : List RPost), posts = l₁ ++ p :: l₂ →
      (∀ q ∈ l₁, q.num ≠ sid) → p.num = sid →
      (p.ol = none → get_player_list posts sid = Except.error "AttributeError") ∧
      (∀ players : List String, p.ol = some players →
        get_player_list posts sid =
          Except.ok (players.map (fun a => py_strip (py_lower a))))) := by
  constructor
  · intro h
    have hskip := get_player_list_skip posts [] sid h
    rw [List.append_nil] at hskip
    exact hskip
  · intro l₁ p l₂ hsplit hskip hpnum
    rw [hsplit, get_player_list_skip l₁ (p :: l₂) sid hskip]
    constructor
    · intro hol
      simp only [get_player_list]
      rw [if_pos hpnum, hol]
    · intro players hol
      simp only [get_player_list]
      rw [if_pos hpnum, hol]

/-- Witness for C5 (amended): an absent post yields the empty roster, a
matching post without a list yields the error, and a matching post with a
list yields the lowercased, stripped names. -/
theorem get_player_list_cases_witness :
    get_player_list [⟨2, some ["A"]⟩] 5 = Except.ok [] ∧
    get_player_list [⟨2, some ["A"]⟩, ⟨5, none⟩] 5 = Except.error "AttributeError" ∧
    get_player_list [⟨5, some [" Alice "]⟩] 5 = Except.ok ["alice"] := by
  refine ⟨?_, ?_, ?_⟩
  · exact (get_player_list_cases [⟨2, some ["A"]⟩] 5).1 (by decide)
  · exact ((get_player_list_cases [⟨2, some ["A"]⟩, ⟨5, none⟩] 5).2
      [⟨2, some ["A"]⟩] ⟨5, none⟩ [] rfl (by decide) rfl).1 rfl
  · exact (((get_player_list_cases [⟨5, some [" Alice "]⟩] 5).2
      [] ⟨5, some [" Alice "]⟩ [] rfl (by decide) rfl).2 [" Alice "] rfl).trans (by rfl)

/-- A post as read by `get_actions_from_page`: its `data-num`, `data-autor`,
the `data-time` of its `span.rd` when that span is present, and the `h4`
texts of its `post-contents` div when that div is present. -/
structure APost where
  num : Nat
  autor : String
  rdTime : Option Int
  contents : Option (List String)
deriving DecidableEq, Repr

/-- The command loop of `get_actions_from_page` for one qualifying post:
each `h4` command header becomes one GameAction.  The timestamp is read
inside the loop body, so a missing `span.rd` raises `TypeError` only when
at least one command exists.  `nfkc` abstracts
`unicodedata.normalize("NFKC", ·)`. -/
def actions_of_commands (nfkc : String → String) (p : APost) :
    List String → Except String (List GameAction)
  | [] => Except.ok []
  | command :: rest =>
    match p.rdTime with
    | none => Except.error "TypeError"
    | some t =>
      match actions_of_commands nfkc p rest with
      | Except.error msg => Except.error msg
      | Except.ok more =>
        Except.ok (⟨p.num, t, nfkc (py_lower command), py_lower p.autor⟩ :: more)

/-- One post of `get_actions_from_page`: `post.find('div',
class_='post-contents')` is `None` when the content div is absent, and
calling `.find_all('h4')` on it raises `AttributeError`. -/
def actions_of_post (nfkc : String → String) (p : APost) : Except String (List GameAction) :=
  match p.contents with
  | none => Except.error "AttributeError"
  | some commands => actions_of_commands nfkc p commands

/-- Embeds `get_actions_from_page` over the page's posts: posts whose `data-num` is
strictly greater than `start_from_post` contribute their actions in
document order; a raised exception propagates and discards the
already-collected actions. -/
def get_actions_from_page (nfkc : String → String) :
    List APost → Nat → Except String (List GameAction)
  | [], _ => Except.ok []
  | p :: rest, start_from_post =>
    if start_from_post < p.num then
      match actions_of_post nfkc p with
      | Except.error msg => Except.error msg
      | Except.ok acts =>
        match get_actions_from_page nfkc rest start_from_post with
        | Except.error msg => Except.error msg
        | Except.ok more => Except.ok (acts ++ more)
    else get_actions_from_page nfkc rest start_from_post

lemma actions_of_commands_ok (nfkc : String → String) (p : APost) (t : Int)
    (h : p.rdTime = some t) (commands : List String) :
    actions_of_commands nfkc p commands =
      Except.ok (commands.map
        (fun c => ⟨p.num, t, nfkc (py_lower c), py_lower p.autor⟩)) := by
  induction commands with
  | nil => rfl
  | cons c rest ih => simp [actions_of_commands, h, ih]

/-- C9: a qualifying post yields exactly one ActionRecord per command header
in its content — sharing the post's identifier, timestamp, and lowercased
author, and differing only in the command text, which is lowercased and
then normalized by the NFKC collaborator. -/
theorem get_actions_from_page_count (nfkc : String → String) (p : APost)
    (start_from_post : Nat) (commands : List String) (t : Int)
    (hgt : start_from_post < p.num) (hc : p.contents = some commands)
    (ht : p.rdTime = some t) :
    ∃ acts : List GameAction,
      get_actions_from_page nfkc [p] start_from_post = Except.ok acts ∧
      acts.length = commands.length ∧
      (∀ a ∈ acts, a.post_id = p.num ∧ a.post_time = t ∧ a.author = py_lower p.autor) ∧
      acts = commands.map (fun c => ⟨p.num, t, nfkc (py_lower c), py_lower p.autor⟩) := by
  refine ⟨commands.map (fun c => ⟨p.num, t, nfkc (py_lower c), py_lower p.autor⟩),
    ?_, by simp, ?_, rfl⟩
  · have hap : actions_of_post nfkc p =
        Except.ok (commands.map
          (fun c => ⟨p.num, t, nfkc (py_lower c), py_lower p.autor⟩)) := by
      unfold actions_of_post
      rw [hc]
      exact actions_of_commands_ok nfkc p t ht commands
    simp only [get_actions_from_page]
    rw [if_pos hgt, hap]
    simp [get_actions_from_page]
  · intro a ha
    obtain ⟨c, _, hceq⟩ := List.mem_map.mp ha
    rw [← hceq]
    exact ⟨rfl, rfl, rfl⟩

/-- Witness for C9: a post with three command headers yields exactly three
ActionRecords sharing identifier 7, timestamp 50 and author "bob". -/
theorem get_actions_from_page_count_witness :
    get_actions_from_page (fun a => a) [⟨7, "Bob", some 50, some ["X1", "X2", "X3"]⟩] 3 =
      Except.ok [⟨7, 50, "x1", "bob"⟩, ⟨7, 50, "x2", "bob"⟩, ⟨7, 50, "x3", "bob"⟩] := by
  obtain ⟨acts, h1, _, _, h4⟩ := get_actions_from_page_count (fun a => a)
    ⟨7, "Bob", some 50, some ["X1", "X2", "X3"]⟩ 3 ["X1", "X2", "X3"] 50
    (by decide) rfl rfl
  rw [h4] at h1
  exact h1.trans (by rfl)

lemma actions_of_commands_post_id (nfkc : String → String) (p : APost) :
    ∀ (commands : List String) (out : List GameAction),
      actions_of_commands nfkc p commands = Except.ok out →
      ∀ a ∈ out, a.post_id = p.num := by
  intro commands
  induction commands with
  | nil =>
    intro out h a ha
    cases h
    simp at ha
  | cons c rest ih =>
    intro out h a ha
    simp only [actions_of_commands] at h
    cases hrd : p.rdTime with
    | none =>
      simp only [hrd] at h
      exact Except.noConfusion h
    | some t =>
      simp only [hrd] at h
      cases hrec : actions_of_commands nfkc p rest with
      | error msg =>
        simp only [hrec] at h
        exact Except.noConfusion h
      | ok more =>
        simp only [hrec] at h
        have hout := Except.ok.inj h
        rw [← hout] at ha
        rcases List.mem_cons.mp ha with h1 | h1
        · rw [h1]
        · exact ih more hrec a h1

lemma actions_of_post_post_id (nfkc : String → String) (p : APost)
    (out : List GameAction) (h : actions_of_post nfkc p = Except.ok out) :
    ∀ a ∈ out, a.post_id = p.num := by
  unfold actions_of_post at h
  cases hc : p.contents with
  | none =>
    simp only [hc] at h
    exact Except.noConfusion h
  | some commands =>
    simp only [hc] at h
    exact actions_of_commands_post_id nfkc p commands out h

/-- C10: action extraction excludes the boundary post itself — every
returned ActionRecord carries a post identifier strictly greater than
`start_from_post`, so commands in the post with identifier equal to
`start_from_post` are never returned. -/
theorem get_actions_from_page_bound (nfkc : String → String) (posts : List APost) :
    ∀ (start_from_post : Nat) (acts : List GameAction),
      get_actions_from_page nfkc posts start_from_post = Except.ok acts →
      ∀ a ∈ acts, start_from_post < a.post_id := by
  induction posts with
  | nil =>
    intro start acts h a ha
    simp only [get_actions_from_page] at h
    have := Except.ok.inj h
    rw [← this] at ha
    simp at ha
  | cons p rest ih =>
    intro start acts h a ha
    simp only [get_actions_from_page] at h
    by_cases hlt : start < p.num
    · rw [if_pos hlt] at h
      cases hap : actions_of_post nfkc p with
      | error msg =>
        simp only [hap] at h
        exact Except.noConfusion h
      | ok acts1 =>
        simp only [hap] at h
        cases hrec : get_actions_from_page nfkc rest start with
        | error msg =>
          simp only [hrec] at h
          exact Except.noConfusion h
        | ok more =>
          simp only [hrec] at h
          have hacts := Except.ok.inj h
          rw [← hacts] at ha
          rcases List.mem_append.mp ha with h1 | h1
          · rw [actions_of_post_post_id nfkc p acts1 hap a h1]
            exact hlt
          · exact ih start more hrec a h1
    · rw [if_neg hlt] at h
      exact ih start acts h a ha

/-- Witness for C10: with the boundary at post 3, only post 5's action comes
back, and its identifier exceeds 3. -/
theorem get_actions_from_page_bound_witness :
    3 < (GameAction.mk 5 60 "y" "bob").post_id :=
  get_actions_from_page_bound (fun a => a)
    [⟨3, "Ann", some 40, some ["x"]⟩, ⟨5, "Bob", some 60, some ["Y"]⟩] 3
    [⟨5, 60, "y", "bob"⟩] (by rfl) ⟨5, 60, "y", "bob"⟩ (by simp)

/-- Counterexample to C4 as stated: a post without its timestamp span makes
parse_stage raise (TypeError), and a qualifying post without its content
div makes get_actions_from_page raise (AttributeError) — neither extraction
point falls back to a default. -/
theorem never_raises_counterexample :
    parse_stage game_end_match stage_end_match stage_start_match ⟨3, none, ["Día 1"]⟩ =
      Except.error "TypeError" ∧
    get_actions_from_page (fun a => a) [⟨4, "bob", some 10, none⟩] 0 =
      Except.error "AttributeError" :=
  ⟨rfl, rfl⟩

/-- C4 (amended): the pagination resolver catches its structural failures
and falls back to the default page count 1, but parse_stage's timestamp
extraction and get_actions_from_page's content extraction propagate an
exception to the caller when the expected span or content div is missing. -/
theorem extraction_failure_modes :
    (∀ html : Doc, html.bottompanel = none → get_total_pages html = 1) ∧
    (∀ (g e s : String → Bool) (post : SPost), post.spanTime = none →
      parse_stage g e s post = Except.error "TypeError") ∧
    (∀ (nfkc : String → String) (p : APost) (rest : List APost)
      (start_from_post : Nat), p.contents = none → start_from_post < p.num →
      get_actions_from_page nfkc (p :: rest) start_from_post =
        Except.error "AttributeError") := by
  refine ⟨fun html h => ?_, fun g e s post h => ?_,
    fun nfkc p rest start hc hlt => ?_⟩
  · simp only [get_total_pages, h]
  · unfold parse_stage
    rw [h]
  · simp only [get_actions_from_page]
    rw [if_pos hlt]
    unfold actions_of_post
    rw [hc]

/-- Witness for C4 (amended) at concrete inputs for all three conjuncts. -/
theorem extraction_failure_modes_witness :
    get_total_pages ⟨none⟩ = 1 ∧
    parse_stage game_end_match stage_end_match stage_start_match ⟨9, none, []⟩ =
      Except.error "TypeError" ∧
    get_actions_from_page (fun a => a) [⟨4, "ann", some 10, none⟩] 2 =
      Except.error "AttributeError" :=
  ⟨extraction_failure_modes.1 ⟨none⟩ rfl,
    extraction_failure_modes.2.1 game_end_match stage_end_match stage_start_match
      ⟨9, none, []⟩ rfl,
    extraction_failure_modes.2.2 (fun a => a) ⟨4, "ann", some 10, none⟩ [] 2 rfl
      (by decide)⟩
